import Mathlib

/-!
Verification of the twilio-pbx call-routing core.

Shallow embedding of the routing decision engine of the `twilio-pbx`
repository:

* `src/functions/ringGroup.ts` — the sequential ring-group state machine
  (`handler`, `shouldProceedToNext`, `fetchRingGroupConfig`);
* `src/functions/callTransfer.ts` — the warm-transfer REFER handler
  (target normalization, Sync-map routing resolution, dispatch);
* the shared asset `syncUtils.js` (`extractPhoneFromSipUri`,
  `fetchNumberConfig`).

Strings are modelled by Lean `String` / `List Char`; the JavaScript
functions used by the source (`trim`, `slice(1,-1)`, `startsWith`,
`parseInt(_, 10)`, `||`-defaulting, the two regular expressions
for SIP-address capture and strict E.164 validation) are embedded as
executable Lean functions on character lists.  Asynchronous store reads
are passed in as explicit fetch-result values; a thrown JavaScript
exception inside the ring-group `try` block is modelled by
`Except.error`, which the surrounding handler turns into the spoken
failure message exactly as the `catch` branch of the source does.
JavaScript numbers are modelled by exact integers (`Int`), with `NaN`
modelled as `Option.none` in the result of `parseIntJS`.
-/

namespace TwilioPbx

/-- The ASCII whitespace characters removed by `String.prototype.trim`
and skipped by `parseInt` (the characters relevant to this code base). -/
def wsp (c : Char) : Bool :=
  decide (c = ' ' ∨ c = '\t' ∨ c = '\n' ∨ c = '\r' ∨ c = '\x0b' ∨ c = '\x0c')

/-- The character class `[0-9]` (also `\d`) of the source regexes. -/
def isDigitC (c : Char) : Bool :=
  decide ('0' ≤ c ∧ c ≤ '9')

/-- `s.trimStart()` on the character-list model. -/
def trimL (cs : List Char) : List Char := cs.dropWhile wsp

/-- `s.trimEnd()` on the character-list model. -/
def trimR (cs : List Char) : List Char := (cs.reverse.dropWhile wsp).reverse

/-- `s.trim()` on the character-list model. -/
def trimC (cs : List Char) : List Char := trimR (trimL cs)

/-- `if (t.startsWith('<') && t.endsWith('>')) t = t.slice(1, -1);` —
strips one layer of enclosing angle brackets. -/
def stripBrackets (cs : List Char) : List Char :=
  if cs.head? = some '<' ∧ cs.getLast? = some '>' then (cs.drop 1).dropLast
  else cs

/-- The `[0-9]+@` part of `/^sip:((\+)?[0-9]+)@(.*)/`: a maximal nonempty
digit run followed by `'@'` (the `(.*)` remainder is unconstrained; the
regex is not right-anchored).  Returns the digit run on success. -/
def sipDigits (cs : List Char) : Option (List Char) :=
  if cs.takeWhile isDigitC = [] then none
  else
    match cs.dropWhile isDigitC with
    | '@' :: _ => some (cs.takeWhile isDigitC)
    | _ => none

/-- `cleaned.match(/^sip:((\+)?[0-9]+)@(.*)/)`, returning capture group 1
(the `(+)?digits` substring) when the regex matches. -/
def sipMatchC (cs : List Char) : Option (List Char) :=
  match cs with
  | 's' :: 'i' :: 'p' :: ':' :: rest =>
    match rest with
    | '+' :: rest2 => (sipDigits rest2).map (fun ds => '+' :: ds)
    | _ => sipDigits rest
  | _ => none

/-- `syncUtils.extractPhoneFromSipUri` on character lists: falsy-input
check, trim, one layer of angle brackets, then the SIP regex. -/
def extractPhoneFromSipUriC (cs : List Char) : Option (List Char) :=
  match cs with
  | [] => none
  | _ => sipMatchC (stripBrackets (trimC cs))

/-- `syncUtils.extractPhoneFromSipUri` (the spec's `extractNumber`). -/
def extractPhoneFromSipUri (s : String) : Option String :=
  (extractPhoneFromSipUriC s.data).map String.mk

/-- The `+`-insertion step of the transfer-target cleanup
(`callTransfer.ts` lines 63–68): a `sip:` target lacking `sip:+` gets a
`+` inserted after `sip:`; a non-`sip:` target lacking `+` gets `+`
prepended; anything else is unchanged. -/
def plusAdjust (t : List Char) : List Char :=
  match t with
  | 's' :: 'i' :: 'p' :: ':' :: '+' :: rest => 's' :: 'i' :: 'p' :: ':' :: '+' :: rest
  | 's' :: 'i' :: 'p' :: ':' :: rest => 's' :: 'i' :: 'p' :: ':' :: '+' :: rest
  | '+' :: rest => '+' :: rest
  | other => '+' :: other

/-- The transfer-target cleanup of `callTransfer.ts` lines 58–68 on
character lists: trim, strip one layer of angle brackets, adjust `+`. -/
def normalizeTTC (raw : List Char) : List Char :=
  plusAdjust (stripBrackets (trimC raw))

/-- The spec's `normalizeTransferTarget` (inline in `callTransfer.ts`). -/
def normalizeTransferTarget (s : String) : String :=
  String.mk (normalizeTTC s.data)

/-- Decimal value of a digit run (JavaScript numbers are modelled as
exact integers; the positions used by the ring group are small). -/
def digitsToNat (ds : List Char) : Nat :=
  ds.foldl (fun n c => 10 * n + (c.toNat - 48)) 0

/-- The digit-consuming part of `parseInt(_, 10)`: the maximal leading
digit run, `none` when it is empty (JavaScript `NaN`). -/
def parseDigits (cs : List Char) : Option Nat :=
  match cs.takeWhile isDigitC with
  | [] => none
  | ds => some (digitsToNat ds)

/-- `parseInt(s, 10)`: skip leading whitespace, optional sign, maximal
digit run; `none` models `NaN`. -/
def parseIntJS (s : String) : Option Int :=
  match s.data.dropWhile wsp with
  | '+' :: rest => (parseDigits rest).map (fun n => (n : Int))
  | '-' :: rest => (parseDigits rest).map (fun n => -(n : Int))
  | rest => (parseDigits rest).map (fun n => (n : Int))

/-- JavaScript `a || d` for an optional string `a` and default `d`
(`undefined` and `""` are falsy). -/
def jsOr (a : Option String) (d : String) : String :=
  match a with
  | some s => if s = "" then d else s
  | none => d

/-- JavaScript `a || b` where both operands are optional strings. -/
def jsOrOpt (a b : Option String) : Option String :=
  match a with
  | some s => if s = "" then b else some s
  | none => b

/-- `s.replace(pat, '')` for a nonempty plain-string pattern: removes the
first occurrence of `pat`, if any. -/
def removeFirstC (pat : List Char) : List Char → List Char
  | [] => []
  | c :: cs =>
    if pat.isPrefixOf (c :: cs) then (c :: cs).drop pat.length
    else c :: removeFirstC pat cs

/-- `dest.match(/^\+[1-9]\d{1,14}$/)` — the strict E.164 gate of the PSTN
dispatch branch: `+`, a nonzero digit, then 1 to 14 more digits, end. -/
def isE164strict (s : String) : Bool :=
  match s.data with
  | '+' :: d :: rest =>
    isDigitC d && decide (d ≠ '0') && rest.all isDigitC &&
      decide (1 ≤ rest.length ∧ rest.length ≤ 14)
  | _ => false

/-- `s.trimEnd()` at the string level (used to state the amended C8). -/
def trimEnd (s : String) : String := String.mk (trimR s.data)

/-- The optional `+` sign of the SIP-address shape (statement helper). -/
def sgn (plus : Bool) : List Char := if plus then ['+'] else []

/-- Optional one layer of angle brackets (statement helper). -/
def wrapBr (br : Bool) (l : List Char) : List Char :=
  if br then '<' :: l ++ ['>'] else l

/-! ## The outbound signaling document (TwiML) -/

/-- Attributes of a `<Dial>` verb; `none` models an attribute the source
does not set. -/
structure DialAttrs where
  callerId : Option String := none
  answerOnBridge : Bool := false
  timeout : Option Nat := none
  action : Option String := none
  method : Option String := none
  referUrl : Option String := none
  referMethod : Option String := none
deriving DecidableEq

/-- The noun nested inside a `<Dial>`. -/
inductive DialNoun
  | sip (uri : String)
  | number (num : String)
  | client (nm : String)
deriving DecidableEq

/-- One TwiML verb as emitted by the handlers. -/
inductive Verb
  | say (msg : String)
  | dial (attrs : DialAttrs) (noun : DialNoun)
  | reject (reason : String)
  | hangup
deriving DecidableEq

/-! ## Ring group (`ringGroup.ts`) -/

/-- `RingGroupDestination` of `ringGroup.ts` (the `type` union
`'sip' | 'number'` is a String at runtime; the handler only compares it
against `'sip'`). -/
structure RingGroupDestination where
  name : String
  type : String
  destination : String
  timeout : Nat
deriving DecidableEq

/-- The failure-status list of `shouldProceedToNext` (note `'cancelled'`,
double `l`, while the handler's own `DialCallStatus` type declares
`'canceled'`). -/
def failureStatuses : List String := ["busy", "cancelled", "no-answer", "failed"]

/-- `shouldProceedToNext` of `ringGroup.ts`: falsy statuses do not
proceed; otherwise membership in `failureStatuses`. -/
def shouldProceedToNext (dialStatus : Option String) : Bool :=
  match dialStatus with
  | none => false
  | some s => if s = "" then false else failureStatuses.contains s

/-- The callback action URL of each ring-group dial:
`` `/ringGroup?state=${nextState}&ringGroupId=${ringGroupId}` ``. -/
def ringGroupActionUrl (nextState : Int) (gid : String) : String :=
  "/ringGroup?state=" ++ toString nextState ++ "&ringGroupId=" ++ gid

/-- The `<Dial>` emitted for one ring-group round (`ringGroup.ts`
lines 159–173). -/
def ringGroupDialVerb (d : RingGroupDestination) (nextState : Int) (gid : String)
    (callerNumber : Option String) : Verb :=
  .dial
    { callerId := callerNumber, answerOnBridge := true, timeout := some d.timeout,
      action := some (ringGroupActionUrl nextState gid), method := some "POST",
      referUrl := some "/callTransfer", referMethod := some "POST" }
    (if d.type = "sip" then .sip d.destination else .number d.destination)

/-- The state-machine part of the ring-group handler (after a non-null,
non-empty destination list was fetched).  `stateV` is the `parseInt`
result (`none` = `NaN`).  `Except.error` models a thrown exception
(reading `.name` of an `undefined` array element), caught by the
handler's `catch`. -/
def ringGroupCore (dests : List RingGroupDestination) (gid : String)
    (stateV : Option Int) (prev : Option String)
    (callerNumber : Option String) : Except Unit (List Verb) :=
  match stateV with
  | none => .error ()
  | some s =>
    if 0 < s ∧ shouldProceedToNext prev = false then
      -- the log line reads destinations[state-1].name before returning
      if s - 1 < (dests.length : Int) then .ok [] else .error ()
    else if (dests.length : Int) ≤ s then .ok []
    else if s < 0 then .error ()
    else
      match dests[s.toNat]? with
      | some d => .ok [ringGroupDialVerb d (s + 1) gid callerNumber]
      | none => .error ()

/-- Spoken failure of the missing/empty-configuration branch
(`ringGroup.ts` line 123). -/
def notConfiguredMsg (gid : String) : String :=
  "Ring group " ++ gid ++ " is not configured. Unable to connect your call."

/-- Spoken failure of the `catch` branch (`ringGroup.ts` line 179). -/
def unableMsg : String := "We are unable to connect your call at this time."

/-- The ring-group `handler`.  `envOk` is the presence of
`SYNC_SERVICE_SID` and `SYNC_MAP_RINGGROUP_NAME`; `fetched` is the
result of `fetchRingGroupConfig` (`none` = not found / store error /
malformed shape); the remaining arguments are the event fields
`ringGroupId`, `state`, `DialCallStatus`, `From`, `Caller`. -/
def ringGroupHandler (envOk : Bool) (fetched : Option (List RingGroupDestination))
    (gidRaw stRaw prev fromF callerF : Option String) : List Verb :=
  let callerNumber := jsOrOpt fromF callerF
  let gid := jsOr gidRaw "1"
  if envOk = false then
    [.say "Ring group service is not configured. Please contact support.", .hangup]
  else
    match fetched with
    | none => [.say (notConfiguredMsg gid), .hangup]
    | some dests =>
      if dests.length = 0 then [.say (notConfiguredMsg gid), .hangup]
      else
        match ringGroupCore dests gid (parseIntJS (jsOr stRaw "0")) prev callerNumber with
        | .ok vs => vs
        | .error _ => [.say unableMsg, .hangup]

/-! ## Call transfer (`callTransfer.ts` and `syncUtils.js`) -/

/-- The routing record held in the phone-number Sync map. -/
structure RouteRecord where
  type : String
  uri : String
deriving DecidableEq

/-- Outcome of one Config-Store read: a record, an explicit 404, or any
other error. -/
inductive StoreResult
  | found (r : RouteRecord)
  | notFound
  | storeError (msg : String)
deriving DecidableEq

/-- `syncUtils.fetchNumberConfig`: falsy-parameter check, then the fetch;
404 and every other error both collapse to `none` (the catch branch
returns `null` in both arms and never rethrows). -/
def fetchNumberConfig (hasClient : Bool) (serviceSid mapName phoneNumber : String)
    (res : StoreResult) : Option RouteRecord :=
  if hasClient = false ∨ serviceSid = "" ∨ mapName = "" ∨ phoneNumber = "" then none
  else
    match res with
    | .found r => some r
    | .notFound => none
    | .storeError _ => none

/-- The environment variables read by `callTransfer.ts`. -/
structure TransferEnv where
  syncServiceSid : Option String
  syncMapPhonesName : Option String
deriving DecidableEq

/-- Step 3 of `callTransfer.handler`: the Sync lookup happens only when a
phone number was extracted and both environment variables are truthy;
otherwise `mapConfig` stays `null`. -/
def resolveMapConfig (env : TransferEnv) (phoneNumber : Option String)
    (store : StoreResult) : Option RouteRecord :=
  match phoneNumber, env.syncServiceSid, env.syncMapPhonesName with
  | some pn, some sid, some mapName =>
    if pn ≠ "" ∧ sid ≠ "" ∧ mapName ≠ "" then fetchNumberConfig true sid mapName pn store
    else none
  | _, _, _ => none

/-- Step 5 of `callTransfer.handler`: a `sip:`-shaped `From` is reduced
to its number via the caller regex (no trim, no bracket stripping);
anything else passes through unchanged. -/
def extractCallerId (f : Option String) : Option String :=
  match f with
  | none => none
  | some s =>
    match s.data with
    | 's' :: 'i' :: 'p' :: ':' :: _ =>
      match sipMatchC s.data with
      | some num => some (String.mk num)
      | none => some s
    | _ => some s

/-- Step 4 of `callTransfer.handler`: the correlation token (UUI) with
priority `SipHeader_x-inin-cnv` → `SipHeader_User-to-User` → `CallSid`. -/
def uuiOf (hdrInin hdrU2U : Option String) (callSid : String) : String :=
  jsOr hdrInin (jsOr hdrU2U callSid)

/-- `sipDestination.includes('?') ? uri&User-to-User=UUI : uri?User-to-User=UUI`. -/
def sipTargetWithUUI (uri uui : String) : String :=
  if uri.data.contains '?' then uri ++ "&User-to-User=" ++ uui
  else uri ++ "?User-to-User=" ++ uui

/-- Step 6 of `callTransfer.handler`: the `switch (routingType)` dispatch
block (lines 120–174). -/
def dispatchTransfer (mapConfig : Option RouteRecord) (phoneNumber : Option String)
    (target uui : String) (callerId : Option String) : List Verb :=
  let routingType := jsOr (mapConfig.map (·.type)) "pstn"
  if routingType = "sip" then
    match mapConfig with
    | none => [.reject "busy"]
    | some mc => [.dial {} (.sip (sipTargetWithUUI mc.uri uui))]
  else if routingType = "client" then
    match mapConfig with
    | none => [.reject "busy"]
    | some mc =>
      [.dial { callerId := callerId }
        (.client (String.mk (removeFirstC ("client:".data) mc.uri.data)))]
  else
    let pstnDestination := jsOr (mapConfig.map (·.uri)) (jsOr phoneNumber target)
    if isE164strict pstnDestination = true then
      [.dial { callerId := callerId } (.number pstnDestination)]
    else [.reject "busy"]

/-- Result of one `callTransfer` invocation: an explicit error value
passed to the serverless callback, or a TwiML document. -/
inductive TransferResult
  | err (msg : String)
  | twiml (verbs : List Verb)
deriving DecidableEq

/-- The `callTransfer` `handler`: validate `ReferTransferTarget`,
normalize it, extract the number, resolve the route, dispatch. -/
def callTransferHandler (env : TransferEnv) (referTransferTarget fromF : Option String)
    (callSid : String) (hdrInin hdrU2U : Option String)
    (store : StoreResult) : TransferResult :=
  match referTransferTarget with
  | none => .err "Missing ReferTransferTarget parameter"
  | some rt =>
    if rt = "" then .err "Missing ReferTransferTarget parameter"
    else
      let target := normalizeTransferTarget rt
      let phoneNumber := extractPhoneFromSipUri target
      let mapConfig := resolveMapConfig env phoneNumber store
      let uui := uuiOf hdrInin hdrU2U callSid
      let callerId := extractCallerId fromF
      .twiml (dispatchTransfer mapConfig phoneNumber target uui callerId)

lemma ringGroupHandler_eq (dests : List RingGroupDestination) (h : dests ≠ [])
    (gidRaw stRaw prev fromF callerF : Option String) :
    ringGroupHandler true (some dests) gidRaw stRaw prev fromF callerF =
      (match ringGroupCore dests (jsOr gidRaw "1") (parseIntJS (jsOr stRaw "0")) prev
          (jsOrOpt fromF callerF) with
        | .ok vs => vs
        | .error _ => [.say unableMsg, .hangup]) := by
  simp [ringGroupHandler, h]

lemma ringGroupCore_zero (dests : List RingGroupDestination) (gid : String)
    (prev caller : Option String) (d : RingGroupDestination) (hd : dests[0]? = some d) :
    ringGroupCore dests gid (some 0) prev caller = .ok [ringGroupDialVerb d 1 gid caller] := by
  have hne : dests ≠ [] := by
    intro h; rw [h] at hd; simp at hd
  have hlen : 0 < dests.length := List.length_pos.mpr hne
  simp [ringGroupCore, hd]
  exact hne

lemma ringGroupCore_answered (dests : List RingGroupDestination) (gid : String)
    (prev caller : Option String) (p : Nat) (h0 : 0 < p) (hle : p ≤ dests.length)
    (hpr : shouldProceedToNext prev = false) :
    ringGroupCore dests gid (some (p : Int)) prev caller = .ok [] := by
  simp only [ringGroupCore]
  rw [if_pos]
  · rw [if_pos (by omega)]
  · exact ⟨by exact_mod_cast h0, hpr⟩

lemma ringGroupCore_advance (dests : List RingGroupDestination) (gid : String)
    (prev caller : Option String) (p : Nat) (d : RingGroupDestination)
    (h0 : 0 < p) (hlt : p < dests.length) (hpr : shouldProceedToNext prev = true)
    (hd : dests[p]? = some d) :
    ringGroupCore dests gid (some (p : Int)) prev caller =
      .ok [ringGroupDialVerb d ((p : Int) + 1) gid caller] := by
  simp only [ringGroupCore]
  rw [if_neg (by simp [hpr])]
  rw [if_neg (by omega)]
  rw [if_neg (by omega)]
  simp [hd]

lemma ringGroupCore_exhausted (dests : List RingGroupDestination) (gid : String)
    (prev caller : Option String) (p : Nat) (hge : dests.length ≤ p)
    (hpr : shouldProceedToNext prev = true) :
    ringGroupCore dests gid (some (p : Int)) prev caller = .ok [] := by
  simp only [ringGroupCore]
  rw [if_neg (by simp [hpr])]
  rw [if_pos (by omega)]

lemma ringGroupCore_outOfRange (dests : List RingGroupDestination) (gid : String)
    (prev caller : Option String) (p : Nat) (hgt : dests.length < p)
    (hpr : shouldProceedToNext prev = false) :
    ringGroupCore dests gid (some (p : Int)) prev caller = .error () := by
  simp only [ringGroupCore]
  rw [if_pos ⟨by exact_mod_cast Nat.pos_of_ne_zero (by omega), hpr⟩]
  rw [if_neg (by omega)]

lemma sipDigits_ne_nil {cs ds : List Char} (h : sipDigits cs = some ds) : ds ≠ [] := by
  unfold sipDigits at h
  split at h
  · exact absurd h (by simp)
  · rename_i hne
    split at h
    · cases h; exact hne
    · exact absurd h (by simp)

lemma sipMatchC_ne_nil {cs r : List Char} (h : sipMatchC cs = some r) : r ≠ [] := by
  unfold sipMatchC at h
  split at h
  · rename_i rest
    split at h
    · rcases Option.map_eq_some'.mp h with ⟨ds, hds, hr⟩
      subst hr; simp
    · exact sipDigits_ne_nil h
  · exact absurd h (by simp)

lemma extractPhone_ne_empty {t pn : String} (h : extractPhoneFromSipUri t = some pn) :
    pn ≠ "" := by
  unfold extractPhoneFromSipUri at h
  rcases Option.map_eq_some'.mp h with ⟨l, hl, hpn⟩
  have hlne : l ≠ [] := by
    unfold extractPhoneFromSipUriC at hl
    split at hl
    · exact absurd hl (by simp)
    · exact sipMatchC_ne_nil hl
  subst hpn
  intro hc
  exact hlne (congrArg String.data hc)

lemma resolveMapConfig_notFound (env : TransferEnv) (pn : Option String) :
    resolveMapConfig env pn .notFound = none := by
  unfold resolveMapConfig
  split <;> try rfl
  split <;> try rfl
  unfold fetchNumberConfig
  split <;> rfl

lemma resolveMapConfig_storeError (env : TransferEnv) (pn : Option String) (m : String) :
    resolveMapConfig env pn (.storeError m) = none := by
  unfold resolveMapConfig
  split <;> try rfl
  split <;> try rfl
  unfold fetchNumberConfig
  split <;> rfl

lemma callTransferHandler_eq (env : TransferEnv) (rt : String) (hrt : rt ≠ "")
    (fromF hdrInin hdrU2U : Option String) (callSid : String) (store : StoreResult) :
    callTransferHandler env (some rt) fromF callSid hdrInin hdrU2U store =
      .twiml (dispatchTransfer
        (resolveMapConfig env (extractPhoneFromSipUri (normalizeTransferTarget rt)) store)
        (extractPhoneFromSipUri (normalizeTransferTarget rt))
        (normalizeTransferTarget rt)
        (uuiOf hdrInin hdrU2U callSid)
        (extractCallerId fromF)) := by
  show (if rt = "" then TransferResult.err "Missing ReferTransferTarget parameter"
    else TransferResult.twiml (dispatchTransfer
      (resolveMapConfig env (extractPhoneFromSipUri (normalizeTransferTarget rt)) store)
      (extractPhoneFromSipUri (normalizeTransferTarget rt))
      (normalizeTransferTarget rt)
      (uuiOf hdrInin hdrU2U callSid)
      (extractCallerId fromF))) = _
  rw [if_neg hrt]

lemma dispatchTransfer_default (mapConfig : Option RouteRecord) (phoneNumber : Option String)
    (target uui : String) (callerId : Option String)
    (hsip : jsOr (mapConfig.map (·.type)) "pstn" ≠ "sip")
    (hcli : jsOr (mapConfig.map (·.type)) "pstn" ≠ "client") :
    dispatchTransfer mapConfig phoneNumber target uui callerId =
      (if isE164strict (jsOr (mapConfig.map (·.uri)) (jsOr phoneNumber target)) = true then
        [.dial { callerId := callerId } (.number (jsOr (mapConfig.map (·.uri)) (jsOr phoneNumber target)))]
      else [.reject "busy"]) := by
  unfold dispatchTransfer
  rw [if_neg hsip, if_neg hcli]

lemma dispatchTransfer_sip (mc : RouteRecord) (phoneNumber : Option String)
    (target uui : String) (callerId : Option String) (ht : mc.type = "sip") :
    dispatchTransfer (some mc) phoneNumber target uui callerId =
      [.dial {} (.sip (sipTargetWithUUI mc.uri uui))] := by
  unfold dispatchTransfer
  rw [if_pos]
  simp [jsOr, ht]

lemma dispatchTransfer_client (mc : RouteRecord) (phoneNumber : Option String)
    (target uui : String) (callerId : Option String) (ht : mc.type = "client") :
    dispatchTransfer (some mc) phoneNumber target uui callerId =
      [.dial { callerId := callerId }
        (.client (String.mk (removeFirstC ("client:".data) mc.uri.data)))] := by
  unfold dispatchTransfer
  rw [if_neg, if_pos]
  · simp [jsOr, ht]
  · simp [jsOr, ht]

lemma allWsp_dropWhile {w : List Char} (l : List Char) (hw : ∀ c ∈ w, wsp c = true) :
    (w ++ l).dropWhile wsp = l.dropWhile wsp := by
  induction w with
  | nil => rfl
  | cons c w ih =>
    rw [List.cons_append, List.dropWhile_cons, if_pos (hw c (by simp))]
    exact ih (fun x hx => hw x (by simp [hx]))

lemma trimL_cons_nonwsp {c : Char} {cs : List Char} (h : wsp c = false) :
    trimL (c :: cs) = c :: cs := by
  unfold trimL
  rw [List.dropWhile_cons, if_neg (by simp [h])]

lemma trimR_cons_nonwsp {c : Char} {cs : List Char} (h : wsp c = false) :
    trimR (c :: cs) = c :: trimR cs := by
  unfold trimR
  rw [List.reverse_cons, List.dropWhile_append]
  by_cases he : (cs.reverse.dropWhile wsp).isEmpty
  · rw [if_pos he]
    rw [List.isEmpty_iff.mp he]
    rw [show List.dropWhile wsp [c] = [c] from by
      rw [List.dropWhile_cons, if_neg (by simp [h])]]
    rfl
  · rw [if_neg he, List.reverse_append]
    rfl

lemma nonwsp_prefix_trimR {a : List Char} (l : List Char) (ha : ∀ c ∈ a, wsp c = false) :
    trimR (a ++ l) = a ++ trimR l := by
  induction a with
  | nil => rfl
  | cons c a ih =>
    rw [List.cons_append, trimR_cons_nonwsp (ha c (by simp)),
      ih (fun x hx => ha x (by simp [hx]))]
    rfl

lemma allWsp_trimR {w : List Char} (l : List Char) (hw : ∀ c ∈ w, wsp c = true) :
    trimR (l ++ w) = trimR l := by
  unfold trimR
  rw [List.reverse_append, allWsp_dropWhile l.reverse
    (fun c hc => hw c (List.mem_reverse.mp hc))]

lemma dropWhile_dropWhile (p : Char → Bool) (l : List Char) :
    (l.dropWhile p).dropWhile p = l.dropWhile p := by
  induction l with
  | nil => rfl
  | cons a l ih =>
    rw [List.dropWhile_cons]
    by_cases h : p a
    · rw [if_pos h]; exact ih
    · rw [if_neg h, List.dropWhile_cons, if_neg h]

lemma trimR_idem (l : List Char) : trimR (trimR l) = trimR l := by
  unfold trimR
  rw [List.reverse_reverse, dropWhile_dropWhile]

lemma plusAdjust_shape (t : List Char) :
    (∃ u, plusAdjust t = 's' :: 'i' :: 'p' :: ':' :: '+' :: u) ∨
    (∃ u, plusAdjust t = '+' :: u) := by
  unfold plusAdjust
  split
  · exact Or.inl ⟨_, rfl⟩
  · exact Or.inl ⟨_, rfl⟩
  · exact Or.inr ⟨_, rfl⟩
  · exact Or.inr ⟨_, rfl⟩

lemma stripBrackets_head_ne {l : List Char} (h : l.head? ≠ some '<') :
    stripBrackets l = l := by
  unfold stripBrackets
  rw [if_neg (fun hc => h hc.1)]

lemma normalizeTTC_double (x : List Char) :
    normalizeTTC (normalizeTTC x) = trimR (normalizeTTC x) := by
  have hx : normalizeTTC x = plusAdjust (stripBrackets (trimC x)) := rfl
  rcases plusAdjust_shape (stripBrackets (trimC x)) with ⟨u, hu⟩ | ⟨u, hu⟩
  · rw [hx, hu]
    have ht : trimR ('s' :: 'i' :: 'p' :: ':' :: '+' :: u) =
        's' :: 'i' :: 'p' :: ':' :: '+' :: trimR u := by
      have := nonwsp_prefix_trimR (a := ['s', 'i', 'p', ':', '+']) u (by decide)
      simpa using this
    unfold normalizeTTC
    rw [show trimC ('s' :: 'i' :: 'p' :: ':' :: '+' :: u) =
        trimR ('s' :: 'i' :: 'p' :: ':' :: '+' :: u) from by
      unfold trimC; rw [trimL_cons_nonwsp (by decide)]]
    rw [ht, stripBrackets_head_ne (by simp)]
    rfl
  · rw [hx, hu]
    have ht : trimR ('+' :: u) = '+' :: trimR u := trimR_cons_nonwsp (by decide)
    unfold normalizeTTC
    rw [show trimC ('+' :: u) = trimR ('+' :: u) from by
      unfold trimC; rw [trimL_cons_nonwsp (by decide)]]
    rw [ht, stripBrackets_head_ne (by simp)]
    rfl

lemma digit_not_wsp {c : Char} (h : isDigitC c = true) : wsp c = false := by
  rcases Bool.eq_false_or_eq_true (wsp c) with hw | hw
  · exfalso
    have hw2 := of_decide_eq_true hw
    rcases hw2 with rfl | rfl | rfl | rfl | rfl | rfl <;> exact absurd h (by decide)
  · exact hw

lemma takeWhile_all_append {ds r : List Char} {x : Char}
    (hds : ∀ c ∈ ds, isDigitC c = true) (hx : isDigitC x = false) :
    (ds ++ x :: r).takeWhile isDigitC = ds ∧ (ds ++ x :: r).dropWhile isDigitC = x :: r := by
  induction ds with
  | nil =>
    constructor
    · rw [List.nil_append, List.takeWhile_cons, if_neg (by simp [hx])]
    · rw [List.nil_append, List.dropWhile_cons, if_neg (by simp [hx])]
  | cons c ds ih =>
    obtain ⟨iht, ihd⟩ := ih (fun a ha => hds a (by simp [ha]))
    constructor
    · rw [List.cons_append, List.takeWhile_cons, if_pos (hds c (by simp)), iht]
    · rw [List.cons_append, List.dropWhile_cons, if_pos (hds c (by simp)), ihd]

lemma sipDigits_exact {ds dom : List Char} (hne : ds ≠ [])
    (hdig : ∀ c ∈ ds, isDigitC c = true) :
    sipDigits (ds ++ '@' :: dom) = some ds := by
  obtain ⟨ht, hd⟩ := takeWhile_all_append hdig (show isDigitC '@' = false by decide)
  unfold sipDigits
  rw [ht, hd, if_neg hne]
  rfl

lemma sipMatchC_cons_nonplus {d : Char} (rest : List Char) (hd : d ≠ '+') :
    sipMatchC ('s' :: 'i' :: 'p' :: ':' :: d :: rest) = sipDigits (d :: rest) := by
  unfold sipMatchC
  split
  · rename_i r heq
    simp only [List.cons.injEq, true_and] at heq
    rw [← heq]
    split
    · rename_i r2 heq2
      simp only [List.cons.injEq] at heq2
      exact absurd heq2.1 hd
    · rfl
  · rename_i h
    exact absurd rfl (h (d :: rest))

lemma sipMatchC_exact {ds dom : List Char} (plus : Bool) (hne : ds ≠ [])
    (hdig : ∀ c ∈ ds, isDigitC c = true) :
    sipMatchC ('s' :: 'i' :: 'p' :: ':' :: (sgn plus ++ ds ++ '@' :: dom)) =
      some (sgn plus ++ ds) := by
  cases plus
  · show sipMatchC ('s' :: 'i' :: 'p' :: ':' :: (ds ++ '@' :: dom)) = some ds
    obtain ⟨d, ds2, rfl⟩ : ∃ d ds2, ds = d :: ds2 := by
      cases ds with
      | nil => exact absurd rfl hne
      | cons d ds2 => exact ⟨d, ds2, rfl⟩
    have hd : isDigitC d = true := hdig d (by simp)
    have hdp : d ≠ '+' := fun hc => absurd (hc ▸ hd) (by decide)
    rw [List.cons_append, sipMatchC_cons_nonplus _ hdp, ← List.cons_append]
    exact sipDigits_exact hne hdig
  · show sipMatchC ('s' :: 'i' :: 'p' :: ':' :: '+' :: (ds ++ '@' :: dom)) = some ('+' :: ds)
    rw [show sipMatchC ('s' :: 'i' :: 'p' :: ':' :: '+' :: (ds ++ '@' :: dom)) =
      (sipDigits (ds ++ '@' :: dom)).map (fun x => '+' :: x) from rfl,
      sipDigits_exact hne hdig]
    rfl

lemma extractC_ne {l : List Char} (h : l ≠ []) :
    extractPhoneFromSipUriC l = sipMatchC (stripBrackets (trimC l)) := by
  cases l with
  | nil => exact absurd rfl h
  | cons c cs => rfl

lemma trimR_concat_nonwsp {a : Char} (l : List Char) (h : wsp a = false) :
    trimR (l ++ [a]) = l ++ [a] := by
  unfold trimR
  rw [List.reverse_concat, List.dropWhile_cons, if_neg (by simp [h]),
    List.reverse_cons, List.reverse_reverse]

lemma core_pre_nonwsp (plus : Bool) {ds : List Char}
    (hdig : ∀ c ∈ ds, isDigitC c = true) :
    ∀ c ∈ 's' :: 'i' :: 'p' :: ':' :: (sgn plus ++ ds ++ ['@']), wsp c = false := by
  intro c hc
  simp only [List.mem_cons, List.mem_append, List.mem_singleton] at hc
  rcases hc with rfl | rfl | rfl | rfl | hc
  · decide
  · decide
  · decide
  · decide
  · rcases hc with (hs | hd2) | (rfl | h0)
    · cases plus
      · exact absurd hs (by simp [sgn])
      · have hcp : c = '+' := by simpa [sgn] using hs
        subst hcp; decide
    · exact digit_not_wsp (hdig c hd2)
    · decide
    · exact absurd h0 (List.not_mem_nil c)

lemma stripBrackets_wrap (core : List Char) :
    stripBrackets (('<' :: core) ++ ['>']) = core := by
  unfold stripBrackets
  rw [if_pos]
  · rw [List.cons_append]
    show (core ++ ['>']).dropLast = core
    exact List.dropLast_concat
  · constructor
    · rw [List.cons_append]; rfl
    · exact List.getLast?_concat _

lemma trimC_unwrapped {w1 w2 ds dom : List Char} (plus : Bool)
    (h1 : ∀ c ∈ w1, wsp c = true) (h2 : ∀ c ∈ w2, wsp c = true)
    (hdig : ∀ c ∈ ds, isDigitC c = true) :
    trimC ((w1 ++ ('s' :: 'i' :: 'p' :: ':' :: (sgn plus ++ ds ++ '@' :: dom))) ++ w2) =
      's' :: 'i' :: 'p' :: ':' :: (sgn plus ++ ds ++ '@' :: trimR dom) := by
  have hcore : ('s' :: 'i' :: 'p' :: ':' :: (sgn plus ++ ds ++ '@' :: dom)) =
      ('s' :: 'i' :: 'p' :: ':' :: (sgn plus ++ ds ++ ['@'])) ++ dom := by
    simp [List.append_assoc]
  unfold trimC trimL
  rw [List.append_assoc, allWsp_dropWhile _ h1]
  rw [show List.dropWhile wsp (('s' :: 'i' :: 'p' :: ':' ::
      (sgn plus ++ ds ++ '@' :: dom)) ++ w2) =
    ('s' :: 'i' :: 'p' :: ':' :: (sgn plus ++ ds ++ '@' :: dom)) ++ w2 from by
    rw [List.cons_append, List.dropWhile_cons, if_neg (by decide)]]
  rw [allWsp_trimR _ h2, hcore, nonwsp_prefix_trimR dom (core_pre_nonwsp plus hdig)]
  simp [List.append_assoc]

lemma trimC_wrapped {w1 w2 core : List Char}
    (h1 : ∀ c ∈ w1, wsp c = true) (h2 : ∀ c ∈ w2, wsp c = true) :
    trimC ((w1 ++ ('<' :: core ++ ['>'])) ++ w2) = ('<' :: core) ++ ['>'] := by
  unfold trimC trimL
  rw [List.append_assoc, allWsp_dropWhile _ h1]
  rw [show List.dropWhile wsp (('<' :: core ++ ['>']) ++ w2) =
      ('<' :: core ++ ['>']) ++ w2 from by
    simp only [List.cons_append]
    rw [List.dropWhile_cons, if_neg (by decide)]]
  rw [allWsp_trimR _ h2]
  exact trimR_concat_nonwsp _ (by decide)

lemma extractC_pos {w1 w2 ds dom : List Char} (plus br : Bool)
    (h1 : ∀ c ∈ w1, wsp c = true) (h2 : ∀ c ∈ w2, wsp c = true)
    (hne : ds ≠ []) (hdig : ∀ c ∈ ds, isDigitC c = true) :
    extractPhoneFromSipUriC
      ((w1 ++ wrapBr br ('s' :: 'i' :: 'p' :: ':' :: (sgn plus ++ ds ++ '@' :: dom))) ++ w2) =
      some (sgn plus ++ ds) := by
  cases br
  · rw [show wrapBr false ('s' :: 'i' :: 'p' :: ':' :: (sgn plus ++ ds ++ '@' :: dom)) =
      's' :: 'i' :: 'p' :: ':' :: (sgn plus ++ ds ++ '@' :: dom) from rfl]
    rw [extractC_ne (by simp)]
    rw [trimC_unwrapped plus h1 h2 hdig]
    rw [stripBrackets_head_ne (by simp)]
    exact sipMatchC_exact plus hne hdig
  · rw [show wrapBr true ('s' :: 'i' :: 'p' :: ':' :: (sgn plus ++ ds ++ '@' :: dom)) =
      '<' :: ('s' :: 'i' :: 'p' :: ':' :: (sgn plus ++ ds ++ '@' :: dom)) ++ ['>'] from rfl]
    rw [extractC_ne (by simp)]
    rw [trimC_wrapped h1 h2, stripBrackets_wrap]
    exact sipMatchC_exact plus hne hdig

lemma trimC_decomp (l : List Char) :
    ∃ w1 w2, (∀ c ∈ w1, wsp c = true) ∧ (∀ c ∈ w2, wsp c = true) ∧
      l = (w1 ++ trimC l) ++ w2 := by
  refine ⟨l.takeWhile wsp, ((l.dropWhile wsp).reverse.takeWhile wsp).reverse,
    fun c hc => List.mem_takeWhile_imp hc,
    fun c hc => List.mem_takeWhile_imp (List.mem_reverse.mp hc), ?_⟩
  have hm : l = l.takeWhile wsp ++ l.dropWhile wsp :=
    (List.takeWhile_append_dropWhile wsp l).symm
  have htrim : trimC l = ((l.dropWhile wsp).reverse.dropWhile wsp).reverse := rfl
  have hm2 : l.dropWhile wsp =
      ((l.dropWhile wsp).reverse.dropWhile wsp).reverse ++
        ((l.dropWhile wsp).reverse.takeWhile wsp).reverse := by
    conv_lhs => rw [← List.reverse_reverse (l.dropWhile wsp)]
    conv_lhs =>
      rw [show (l.dropWhile wsp).reverse =
        (l.dropWhile wsp).reverse.takeWhile wsp ++ (l.dropWhile wsp).reverse.dropWhile wsp from
        (List.takeWhile_append_dropWhile wsp (l.dropWhile wsp).reverse).symm]
    rw [List.reverse_append]
  rw [htrim, List.append_assoc, ← hm2]
  exact hm

lemma stripBrackets_inv (t : List Char) :
    stripBrackets t = t ∨ t = ('<' :: stripBrackets t) ++ ['>'] := by
  unfold stripBrackets
  split
  · rename_i hcond
    obtain ⟨hh, hl⟩ := hcond
    right
    obtain ⟨rest, rfl⟩ : ∃ rest, t = '<' :: rest := by
      cases t with
      | nil => simp at hh
      | cons a t2 =>
        have ha : a = '<' := by simpa using hh
        exact ⟨t2, by rw [ha]⟩
    have hrne : rest ≠ [] := by
      intro hr
      subst hr
      simp only [List.getLast?_singleton] at hl
      exact absurd (Option.some.inj hl) (by decide)
    have hl2 : rest.getLast? = some '>' := by
      cases rest with
      | nil => exact absurd rfl hrne
      | cons b r2 =>
        rw [← List.getLast?_cons_cons]
        exact hl
    have hsplit : rest = rest.dropLast ++ ['>'] := by
      have h3 := List.dropLast_append_getLast hrne
      have h4 : rest.getLast hrne = '>' := by
        have h5 := List.getLast?_eq_getLast rest hrne
        rw [h5] at hl2
        exact Option.some.inj hl2
      rw [h4] at h3
      exact h3.symm
    simp only [List.drop_succ_cons, List.drop_zero, List.cons_append]
    conv_lhs => rw [hsplit]
  · left; rfl

lemma sipDigits_inv {cs ds : List Char} (h : sipDigits cs = some ds) :
    ds ≠ [] ∧ (∀ c ∈ ds, isDigitC c = true) ∧ ∃ dom, cs = ds ++ '@' :: dom := by
  unfold sipDigits at h
  split at h
  · exact absurd h (by simp)
  · rename_i hne
    split at h
    · rename_i tail heq
      have hds : cs.takeWhile isDigitC = ds := Option.some.inj h
      refine ⟨hds ▸ hne, fun c hc => List.mem_takeWhile_imp (hds ▸ hc), ⟨tail, ?_⟩⟩
      rw [← hds, ← heq]
      exact (List.takeWhile_append_dropWhile isDigitC cs).symm
    · exact absurd h (by simp)

lemma sipMatchC_inv {cs r : List Char} (h : sipMatchC cs = some r) :
    ∃ (plus : Bool) (ds dom : List Char), ds ≠ [] ∧ (∀ c ∈ ds, isDigitC c = true) ∧
      cs = 's' :: 'i' :: 'p' :: ':' :: (sgn plus ++ ds ++ '@' :: dom) ∧
      r = sgn plus ++ ds := by
  unfold sipMatchC at h
  split at h
  · split at h
    · rcases Option.map_eq_some'.mp h with ⟨ds, hds, hr⟩
      obtain ⟨hne, hdig, dom, hcs⟩ := sipDigits_inv hds
      refine ⟨true, ds, dom, hne, hdig, ?_, ?_⟩
      · rw [hcs]
        simp [sgn]
      · rw [← hr]
        simp [sgn]
    · obtain ⟨hne, hdig, dom, hcs⟩ := sipDigits_inv h
      refine ⟨false, r, dom, hne, hdig, ?_, by simp [sgn]⟩
      rw [hcs]
      simp [sgn]
  · exact absurd h (by simp)

lemma extractC_inv {l r : List Char} (h : extractPhoneFromSipUriC l = some r) :
    ∃ (w1 w2 ds dom : List Char) (plus br : Bool),
      (∀ c ∈ w1, wsp c = true) ∧ (∀ c ∈ w2, wsp c = true) ∧
      ds ≠ [] ∧ (∀ c ∈ ds, isDigitC c = true) ∧
      l = (w1 ++ wrapBr br ('s' :: 'i' :: 'p' :: ':' :: (sgn plus ++ ds ++ '@' :: dom))) ++ w2 ∧
      r = sgn plus ++ ds := by
  have hlne : l ≠ [] := by
    intro hl
    subst hl
    exact absurd h (by simp [extractPhoneFromSipUriC])
  rw [extractC_ne hlne] at h
  obtain ⟨plus, ds, dom, hdne, hdig, hshape, hr⟩ := sipMatchC_inv h
  obtain ⟨w1, w2, hw1, hw2, hl⟩ := trimC_decomp l
  rcases stripBrackets_inv (trimC l) with hsb | hsb
  · refine ⟨w1, w2, ds, dom, plus, false, hw1, hw2, hdne, hdig, ?_, hr⟩
    rw [hl, show wrapBr false ('s' :: 'i' :: 'p' :: ':' :: (sgn plus ++ ds ++ '@' :: dom)) =
      's' :: 'i' :: 'p' :: ':' :: (sgn plus ++ ds ++ '@' :: dom) from rfl, ← hshape, hsb]
  · refine ⟨w1, w2, ds, dom, plus, true, hw1, hw2, hdne, hdig, ?_, hr⟩
    rw [hl, show wrapBr true ('s' :: 'i' :: 'p' :: ':' :: (sgn plus ++ ds ++ '@' :: dom)) =
      ('<' :: ('s' :: 'i' :: 'p' :: ':' :: (sgn plus ++ ds ++ '@' :: dom))) ++ ['>'] from rfl,
      ← hshape]
    conv_lhs => rw [hsb]

/-- C1: the ring-group transition function.  With a fetched nonempty
destination list of length N: position 0 dials destination 0; a
position p > 0 whose previous outcome is absent or not a failure status
emits no further instruction (answered, for p within the list bound,
see C10 for p > N); a failure outcome advances, dialing destination p
when p < N and emitting nothing when p >= N (exhausted); and every dial
encodes exactly p + 1 together with the groupId in the callback action
URL, so the position advances by exactly 1 per non-terminal round. -/
theorem ringGroup_transition_function (dests : List RingGroupDestination)
    (gidRaw stRaw prev fromF callerF : Option String) (p : Nat)
    (hne : dests ≠ [])
    (hp : parseIntJS (jsOr stRaw "0") = some (p : Int)) :
    (∀ d, dests[0]? = some d → p = 0 →
      ringGroupHandler true (some dests) gidRaw stRaw prev fromF callerF =
        [ringGroupDialVerb d 1 (jsOr gidRaw "1") (jsOrOpt fromF callerF)]) ∧
    (0 < p → shouldProceedToNext prev = false → p ≤ dests.length →
      ringGroupHandler true (some dests) gidRaw stRaw prev fromF callerF = []) ∧
    (∀ d, dests[p]? = some d → 0 < p → shouldProceedToNext prev = true → p < dests.length →
      ringGroupHandler true (some dests) gidRaw stRaw prev fromF callerF =
        [ringGroupDialVerb d ((p : Int) + 1) (jsOr gidRaw "1") (jsOrOpt fromF callerF)]) ∧
    (0 < p → shouldProceedToNext prev = true → dests.length ≤ p →
      ringGroupHandler true (some dests) gidRaw stRaw prev fromF callerF = []) := by
  rw [ringGroupHandler_eq dests hne, hp]
  refine ⟨?_, ?_, ?_, ?_⟩
  · intro d hd h0
    subst h0
    rw [show ((0 : Nat) : Int) = (0 : Int) by norm_num]
    rw [ringGroupCore_zero dests _ prev _ d hd]
  · intro h0 hpr hle
    rw [ringGroupCore_answered dests _ prev _ p h0 hle hpr]
  · intro d hd h0 hpr hlt
    rw [ringGroupCore_advance dests _ prev _ p d h0 hlt hpr hd]
  · intro h0 hpr hge
    rw [ringGroupCore_exhausted dests _ prev _ p hge hpr]

theorem ringGroup_transition_function_witness :
    ringGroupHandler true
      (some [⟨"Alice", "number", "+61400000001", 10⟩, ⟨"Bob", "sip", "sip:+61400000002@dom", 15⟩])
      none (some "1") (some "no-answer") (some "+61400111222") none =
      [ringGroupDialVerb ⟨"Bob", "sip", "sip:+61400000002@dom", 15⟩ ((1 : Int) + 1) "1"
        (some "+61400111222")] := by
  have h := ringGroup_transition_function
    [⟨"Alice", "number", "+61400000001", 10⟩, ⟨"Bob", "sip", "sip:+61400000002@dom", 15⟩]
    none (some "1") (some "no-answer") (some "+61400111222") none 1
    (by decide) (by decide)
  exact h.2.2.1 ⟨"Bob", "sip", "sip:+61400000002@dom", 15⟩ (by decide) (by decide) (by decide)
    (by decide)

/-- C2: for resolved kind number or pstn, any other unrecognized kind, or
an absent record, the dial destination is the first non-empty of the
record uri, the extracted number, and the raw normalized target, dialed
with the caller-identity as outbound caller ID, and only if it matches
the strict E.164 pattern; otherwise the invocation emits exactly one
reject(busy) and no dial. -/
theorem callTransfer_pstn_dispatch_gate (env : TransferEnv) (rt : String)
    (fromF : Option String) (callSid : String) (hdrInin hdrU2U : Option String)
    (store : StoreResult) (hrt : rt ≠ "")
    (hsip : jsOr ((resolveMapConfig env (extractPhoneFromSipUri (normalizeTransferTarget rt))
      store).map (·.type)) "pstn" ≠ "sip")
    (hcli : jsOr ((resolveMapConfig env (extractPhoneFromSipUri (normalizeTransferTarget rt))
      store).map (·.type)) "pstn" ≠ "client") :
    callTransferHandler env (some rt) fromF callSid hdrInin hdrU2U store =
      (if isE164strict (jsOr ((resolveMapConfig env
            (extractPhoneFromSipUri (normalizeTransferTarget rt)) store).map (·.uri))
          (jsOr (extractPhoneFromSipUri (normalizeTransferTarget rt))
            (normalizeTransferTarget rt))) = true then
        .twiml [.dial { callerId := extractCallerId fromF }
          (.number (jsOr ((resolveMapConfig env
              (extractPhoneFromSipUri (normalizeTransferTarget rt)) store).map (·.uri))
            (jsOr (extractPhoneFromSipUri (normalizeTransferTarget rt))
              (normalizeTransferTarget rt))))]
      else .twiml [.reject "busy"]) := by
  rw [callTransferHandler_eq env rt hrt fromF hdrInin hdrU2U callSid store,
    dispatchTransfer_default _ _ _ _ _ hsip hcli, apply_ite TransferResult.twiml]

theorem callTransfer_pstn_dispatch_gate_witness :
    callTransferHandler ⟨some "IS123", some "phones"⟩ (some "sip:+61412345678@dom.example")
      (some "+61400111222") "CA1" none none (.found ⟨"number", "+1abc"⟩) =
      .twiml [.reject "busy"] :=
  (callTransfer_pstn_dispatch_gate ⟨some "IS123", some "phones"⟩ "sip:+61412345678@dom.example"
    (some "+61400111222") "CA1" none none (.found ⟨"number", "+1abc"⟩)
    (by decide) (by decide) (by decide)).trans (by decide)

/-- C3: a Config-Store not-found response and a Config-Store error produce
observationally identical dispatch outcomes: both make resolution return
absent (`fetchNumberConfig` returns `none` in both arms of its catch and
never rethrows; the fetch is modelled as a total function), which
degrades to the PSTN fallback using the extracted number. -/
theorem callTransfer_miss_error_identical (env : TransferEnv) (rt : String)
    (fromF : Option String) (callSid : String) (hdrInin hdrU2U : Option String)
    (pn m : String) (hrt : rt ≠ "")
    (hpn : extractPhoneFromSipUri (normalizeTransferTarget rt) = some pn) :
    callTransferHandler env (some rt) fromF callSid hdrInin hdrU2U .notFound =
      callTransferHandler env (some rt) fromF callSid hdrInin hdrU2U (.storeError m) ∧
    resolveMapConfig env (some pn) .notFound = none ∧
    resolveMapConfig env (some pn) (.storeError m) = none ∧
    (∀ sid mapName : String, fetchNumberConfig true sid mapName pn .notFound = none ∧
      fetchNumberConfig true sid mapName pn (.storeError m) = none) ∧
    callTransferHandler env (some rt) fromF callSid hdrInin hdrU2U .notFound =
      (if isE164strict pn = true then
        .twiml [.dial { callerId := extractCallerId fromF } (.number pn)]
      else .twiml [.reject "busy"]) := by
  have hne : pn ≠ "" := extractPhone_ne_empty hpn
  have hfallback : callTransferHandler env (some rt) fromF callSid hdrInin hdrU2U .notFound =
      (if isE164strict pn = true then
        .twiml [.dial { callerId := extractCallerId fromF } (.number pn)]
      else .twiml [.reject "busy"]) := by
    rw [callTransferHandler_eq env rt hrt fromF hdrInin hdrU2U callSid .notFound,
      resolveMapConfig_notFound, hpn,
      dispatchTransfer_default _ _ _ _ _ (by decide) (by decide),
      apply_ite TransferResult.twiml]
    simp only [Option.map_none', jsOr, if_neg hne]
  refine ⟨?_, resolveMapConfig_notFound env (some pn),
    resolveMapConfig_storeError env (some pn) m, ?_, hfallback⟩
  · rw [callTransferHandler_eq env rt hrt fromF hdrInin hdrU2U callSid .notFound,
      callTransferHandler_eq env rt hrt fromF hdrInin hdrU2U callSid (.storeError m),
      resolveMapConfig_notFound, resolveMapConfig_storeError]
  · intro sid mapName
    constructor <;> (unfold fetchNumberConfig; split <;> rfl)

theorem callTransfer_miss_error_identical_witness :
    callTransferHandler ⟨some "IS123", some "phones"⟩ (some "sip:+19995551234@dom.example")
      (some "+61400111222") "CA1" none none .notFound =
      callTransferHandler ⟨some "IS123", some "phones"⟩ (some "sip:+19995551234@dom.example")
        (some "+61400111222") "CA1" none none (.storeError "timeout") :=
  (callTransfer_miss_error_identical ⟨some "IS123", some "phones"⟩
    "sip:+19995551234@dom.example" (some "+61400111222") "CA1" none none
    "+19995551234" "timeout" (by decide) (by decide)).1

/-- C4: a dispatch with resolved kind sip dials the record uri with the
correlation token appended as a query parameter, using an ampersand when
the uri already contains a question mark and a question mark otherwise,
with no caller-ID on the dial; Client and PSTN/default dispatches instead
carry the caller-identity as outbound caller ID and their dialed noun is
exactly the destination, with no token appended. -/
theorem callTransfer_sip_uui_only (env : TransferEnv) (rt : String)
    (fromF : Option String) (callSid : String) (hdrInin hdrU2U : Option String)
    (store : StoreResult) (hrt : rt ≠ "") :
    (∀ mc : RouteRecord,
      resolveMapConfig env (extractPhoneFromSipUri (normalizeTransferTarget rt)) store = some mc →
      mc.type = "sip" →
      callTransferHandler env (some rt) fromF callSid hdrInin hdrU2U store =
        .twiml [.dial {} (.sip (sipTargetWithUUI mc.uri (uuiOf hdrInin hdrU2U callSid)))]) ∧
    (∀ uri uui : String,
      (uri.data.contains '?' = true →
        sipTargetWithUUI uri uui = uri ++ "&User-to-User=" ++ uui) ∧
      (uri.data.contains '?' = false →
        sipTargetWithUUI uri uui = uri ++ "?User-to-User=" ++ uui)) ∧
    (∀ mc : RouteRecord,
      resolveMapConfig env (extractPhoneFromSipUri (normalizeTransferTarget rt)) store = some mc →
      mc.type = "client" →
      callTransferHandler env (some rt) fromF callSid hdrInin hdrU2U store =
        .twiml [.dial { callerId := extractCallerId fromF }
          (.client (String.mk (removeFirstC ("client:".data) mc.uri.data)))]) ∧
    (jsOr ((resolveMapConfig env (extractPhoneFromSipUri (normalizeTransferTarget rt))
        store).map (·.type)) "pstn" ≠ "sip" →
     jsOr ((resolveMapConfig env (extractPhoneFromSipUri (normalizeTransferTarget rt))
        store).map (·.type)) "pstn" ≠ "client" →
      callTransferHandler env (some rt) fromF callSid hdrInin hdrU2U store =
        (if isE164strict (jsOr ((resolveMapConfig env
              (extractPhoneFromSipUri (normalizeTransferTarget rt)) store).map (·.uri))
            (jsOr (extractPhoneFromSipUri (normalizeTransferTarget rt))
              (normalizeTransferTarget rt))) = true then
          .twiml [.dial { callerId := extractCallerId fromF }
            (.number (jsOr ((resolveMapConfig env
                (extractPhoneFromSipUri (normalizeTransferTarget rt)) store).map (·.uri))
              (jsOr (extractPhoneFromSipUri (normalizeTransferTarget rt))
                (normalizeTransferTarget rt))))]
        else .twiml [.reject "busy"])) := by
  refine ⟨?_, ?_, ?_, ?_⟩
  · intro mc hmc ht
    rw [callTransferHandler_eq env rt hrt fromF hdrInin hdrU2U callSid store, hmc,
      dispatchTransfer_sip mc _ _ _ _ ht]
  · intro uri uui
    constructor <;> intro h
    · unfold sipTargetWithUUI
      rw [if_pos h]
    · unfold sipTargetWithUUI
      rw [if_neg (by rw [h]; simp)]
  · intro mc hmc ht
    rw [callTransferHandler_eq env rt hrt fromF hdrInin hdrU2U callSid store, hmc,
      dispatchTransfer_client mc _ _ _ _ ht]
  · intro hsip hcli
    rw [callTransferHandler_eq env rt hrt fromF hdrInin hdrU2U callSid store,
      dispatchTransfer_default _ _ _ _ _ hsip hcli, apply_ite TransferResult.twiml]

theorem callTransfer_sip_uui_only_witness :
    callTransferHandler ⟨some "IS123", some "phones"⟩ (some "sip:+61412345678@dom.example")
      (some "sip:+61400111222@orig.example") "CA123" none none
      (.found ⟨"sip", "sip:+61412345678@dest.example"⟩) =
      .twiml [.dial {} (.sip "sip:+61412345678@dest.example?User-to-User=CA123")] :=
  ((callTransfer_sip_uui_only ⟨some "IS123", some "phones"⟩ "sip:+61412345678@dom.example"
    (some "sip:+61400111222@orig.example") "CA123" none none
    (.found ⟨"sip", "sip:+61412345678@dest.example"⟩) (by decide)).1
    ⟨"sip", "sip:+61412345678@dest.example"⟩ (by decide) rfl).trans (by decide)

/-- C5: `extractPhoneFromSipUri` (the spec's `extractNumber`) returns
exactly the optional-plus-and-digits substring, with the original plus
preserved, for every input of the shape whitespace, optional one layer of
angle brackets, sip:, optional plus, digits, at-sign, arbitrary domain
remainder, optional closing bracket, whitespace; and for every other
input it returns absent (the converse direction characterizes every
successful extraction as having that shape; the function is total, so it
never throws). -/
theorem extractNumber_characterization :
    (∀ (w1 w2 ds dom : List Char) (plus br : Bool),
      (∀ c ∈ w1, wsp c = true) → (∀ c ∈ w2, wsp c = true) →
      ds ≠ [] → (∀ c ∈ ds, isDigitC c = true) →
      extractPhoneFromSipUri (String.mk ((w1 ++ wrapBr br
          ('s' :: 'i' :: 'p' :: ':' :: (sgn plus ++ ds ++ '@' :: dom))) ++ w2)) =
        some (String.mk (sgn plus ++ ds))) ∧
    (∀ s r : String, extractPhoneFromSipUri s = some r →
      ∃ (w1 w2 ds dom : List Char) (plus br : Bool),
        (∀ c ∈ w1, wsp c = true) ∧ (∀ c ∈ w2, wsp c = true) ∧
        ds ≠ [] ∧ (∀ c ∈ ds, isDigitC c = true) ∧
        s.data = (w1 ++ wrapBr br
          ('s' :: 'i' :: 'p' :: ':' :: (sgn plus ++ ds ++ '@' :: dom))) ++ w2 ∧
        r.data = sgn plus ++ ds) := by
  constructor
  · intro w1 w2 ds dom plus br h1 h2 hne hdig
    unfold extractPhoneFromSipUri
    rw [show (String.mk ((w1 ++ wrapBr br
        ('s' :: 'i' :: 'p' :: ':' :: (sgn plus ++ ds ++ '@' :: dom))) ++ w2)).data =
      (w1 ++ wrapBr br ('s' :: 'i' :: 'p' :: ':' :: (sgn plus ++ ds ++ '@' :: dom))) ++ w2
      from rfl]
    rw [extractC_pos plus br h1 h2 hne hdig]
    rfl
  · intro s r h
    unfold extractPhoneFromSipUri at h
    rcases Option.map_eq_some'.mp h with ⟨rl, hrl, hr⟩
    obtain ⟨w1, w2, ds, dom, plus, br, h1, h2, hne, hdig, hl, hrr⟩ := extractC_inv hrl
    exact ⟨w1, w2, ds, dom, plus, br, h1, h2, hne, hdig, hl,
      ((congrArg String.data hr).symm).trans hrr⟩

theorem extractNumber_characterization_witness :
    extractPhoneFromSipUri (String.mk (([' '] ++ wrapBr true
      ('s' :: 'i' :: 'p' :: ':' :: (sgn true ++ ['6', '1', '4'] ++ '@' :: ['e', 'x']))) ++ [' '])) =
      some (String.mk (sgn true ++ ['6', '1', '4'])) :=
  extractNumber_characterization.1 [' '] [' '] ['6', '1', '4'] ['e', 'x'] true true
    (by decide) (by decide) (by decide) (by decide)

/-- C6: a missing destination list (store not-found, error, or malformed
shape) and an empty destination list both emit the spoken not-configured
failure message followed by hangup with no dial, and this terminal fault
is distinct from exhaustion after all destinations were attempted, which
emits an empty response with no message. -/
theorem ringGroup_config_fault_vs_exhaustion (gidRaw stRaw prev fromF callerF : Option String) :
    ringGroupHandler true none gidRaw stRaw prev fromF callerF =
      [.say (notConfiguredMsg (jsOr gidRaw "1")), .hangup] ∧
    ringGroupHandler true (some []) gidRaw stRaw prev fromF callerF =
      [.say (notConfiguredMsg (jsOr gidRaw "1")), .hangup] ∧
    (∀ (dests : List RingGroupDestination) (p : Nat), dests ≠ [] →
      parseIntJS (jsOr stRaw "0") = some (p : Int) → shouldProceedToNext prev = true →
      dests.length ≤ p →
      ringGroupHandler true (some dests) gidRaw stRaw prev fromF callerF = []) ∧
    ([Verb.say (notConfiguredMsg (jsOr gidRaw "1")), Verb.hangup] ≠ ([] : List Verb)) := by
  refine ⟨by simp [ringGroupHandler], by simp [ringGroupHandler], ?_, by simp⟩
  intro dests p h hp hpr hge
  rw [ringGroupHandler_eq dests h, hp, ringGroupCore_exhausted dests _ prev _ p hge hpr]

theorem ringGroup_config_fault_vs_exhaustion_witness :
    ringGroupHandler true (some []) none none none none none =
      [.say (notConfiguredMsg "1"), .hangup] := by
  have h := ringGroup_config_fault_vs_exhaustion none none none none none
  exact h.2.1

/-- C7 counterexample: a present but unparseable `state` does not dial
destination 0 as the claim requires.  `parseInt` of the string abc in
base 10 is `NaN`; both comparisons against `NaN` are false, so the
handler reaches `destinations[NaN]`, which is `undefined`, and reading
`.name` throws, landing in the catch branch that says the failure
message and hangs up. -/
theorem ringGroup_unparseable_state_counterexample :
    ringGroupHandler true (some [⟨"Alice", "number", "+61400000001", 10⟩]) none (some "abc")
      none (some "+61400111222") none = [.say unableMsg, .hangup] ∧
    ringGroupHandler true (some [⟨"Alice", "number", "+61400000001", 10⟩]) none none
      none (some "+61400111222") none =
      [ringGroupDialVerb ⟨"Alice", "number", "+61400000001", 10⟩ 1 "1" (some "+61400111222")] ∧
    ([Verb.say unableMsg, Verb.hangup] ≠
      [ringGroupDialVerb ⟨"Alice", "number", "+61400000001", 10⟩ 1 "1" (some "+61400111222")]) := by
  refine ⟨by decide, by decide, by decide⟩

/-- C7 amended: an absent or empty `state` defaults to 0 and dials
destination 0, the same as an event whose position is explicitly the
string 0; a non-empty `state` that does not parse to an integer yields
`NaN` and ends in the spoken failure plus hangup of the catch branch
instead of dialing destination 0. -/
theorem ringGroup_state_default_amended (dests : List RingGroupDestination)
    (gidRaw prev fromF callerF : Option String) (d : RingGroupDestination)
    (hd : dests[0]? = some d) :
    (∀ stRaw : Option String, stRaw = none ∨ stRaw = some "" →
      ringGroupHandler true (some dests) gidRaw stRaw prev fromF callerF =
        [ringGroupDialVerb d 1 (jsOr gidRaw "1") (jsOrOpt fromF callerF)]) ∧
    (ringGroupHandler true (some dests) gidRaw (some "0") prev fromF callerF =
      [ringGroupDialVerb d 1 (jsOr gidRaw "1") (jsOrOpt fromF callerF)]) ∧
    (∀ s : String, s ≠ "" → parseIntJS s = none →
      ringGroupHandler true (some dests) gidRaw (some s) prev fromF callerF =
        [.say unableMsg, .hangup]) := by
  have hne : dests ≠ [] := by
    intro h; rw [h] at hd; simp at hd
  have hzero : ∀ stRaw : Option String, jsOr stRaw "0" = "0" →
      ringGroupHandler true (some dests) gidRaw stRaw prev fromF callerF =
        [ringGroupDialVerb d 1 (jsOr gidRaw "1") (jsOrOpt fromF callerF)] := by
    intro stRaw hst
    rw [ringGroupHandler_eq dests hne, hst,
      show parseIntJS "0" = some 0 by decide,
      ringGroupCore_zero dests _ prev _ d hd]
  refine ⟨?_, hzero (some "0") (by decide), ?_⟩
  · rintro stRaw (rfl | rfl)
    · exact hzero none rfl
    · exact hzero (some "") rfl
  · intro s hs hnan
    rw [ringGroupHandler_eq dests hne]
    rw [show jsOr (some s) "0" = s from if_neg hs, hnan]
    rfl

theorem ringGroup_state_default_amended_witness :
    ringGroupHandler true (some [⟨"Alice", "number", "+61400000001", 10⟩]) none none
      none (some "+61400111222") none =
      [ringGroupDialVerb ⟨"Alice", "number", "+61400000001", 10⟩ 1 "1" (some "+61400111222")] := by
  have h := ringGroup_state_default_amended [⟨"Alice", "number", "+61400000001", 10⟩]
    none none (some "+61400111222") none ⟨"Alice", "number", "+61400000001", 10⟩ (by decide)
  exact h.1 none (Or.inl rfl)

/-- C8 counterexample: `normalizeTransferTarget` is not idempotent.
Stripping one layer of angle brackets can expose trailing whitespace,
which the first application keeps (the trim happened before the
stripping) and only the second application removes. -/
theorem normalizeTransferTarget_not_idempotent :
    normalizeTransferTarget "< >" = "+ " ∧
    normalizeTransferTarget "+ " = "+" ∧
    normalizeTransferTarget (normalizeTransferTarget "< >") ≠
      normalizeTransferTarget "< >" := by
  refine ⟨by decide, by decide, by decide⟩

/-- C8 amended: a second application of `normalizeTransferTarget` exactly
right-trims the result of the first, so the function is idempotent
precisely on the inputs whose normalized form carries no trailing
whitespace. -/
theorem normalizeTransferTarget_double (s : String) :
    normalizeTransferTarget (normalizeTransferTarget s) =
      trimEnd (normalizeTransferTarget s) :=
  congrArg String.mk (normalizeTTC_double s.data)

/-- C9: the ring-group failure set is exactly the four strings busy,
cancelled, no-answer and failed; the single-l spelling canceled, the one
declared in the handler's own `DialCallStatus` type, makes
`shouldProceedToNext` return false, so the machine treats the call as
answered and emits no further instruction instead of advancing. -/
theorem ringGroup_canceled_spelling (dests : List RingGroupDestination)
    (gidRaw stRaw fromF callerF : Option String) (p : Nat)
    (hne : dests ≠ [])
    (hp : parseIntJS (jsOr stRaw "0") = some (p : Int))
    (h0 : 0 < p) (hle : p ≤ dests.length) :
    shouldProceedToNext (some "canceled") = false ∧
    (∀ s : String, shouldProceedToNext (some s) = true ↔
      (s = "busy" ∨ s = "cancelled" ∨ s = "no-answer" ∨ s = "failed")) ∧
    ringGroupHandler true (some dests) gidRaw stRaw (some "canceled") fromF callerF = [] := by
  refine ⟨by decide, ?_, ?_⟩
  · intro s
    constructor
    · intro h
      simp only [shouldProceedToNext, failureStatuses] at h
      by_cases hs : s = ""
      · simp [hs] at h
      · rw [if_neg hs] at h
        have := List.contains_iff_exists_mem_beq.mp h
        simp only [failureStatuses, List.mem_cons, List.not_mem_nil, or_false, beq_iff_eq] at this
        obtain ⟨a, ha, hb⟩ := this
        subst hb
        tauto
    · rintro (rfl | rfl | rfl | rfl) <;> decide
  · rw [ringGroupHandler_eq dests hne, hp,
      ringGroupCore_answered dests _ (some "canceled") _ p h0 hle (by decide)]

theorem ringGroup_canceled_spelling_witness :
    ringGroupHandler true (some [⟨"Alice", "number", "+61400000001", 10⟩]) none (some "1")
      (some "canceled") (some "+61400111222") none = [] := by
  have h := ringGroup_canceled_spelling [⟨"Alice", "number", "+61400000001", 10⟩]
    none (some "1") (some "+61400111222") none 1 (by decide) (by decide) (by decide) (by decide)
  exact h.2.2

/-- C10: a position p > 0 with a non-failure previous outcome whose
p - 1 is not a valid index of the freshly fetched list (p - 1 >= N)
throws while reading the name of `destinations[p-1]` and the catch
branch emits the spoken unable-to-connect message plus hangup, rather
than the silent empty response produced when p - 1 < N. -/
theorem ringGroup_outOfRange_answered_catch (dests : List RingGroupDestination)
    (gidRaw stRaw prev fromF callerF : Option String) (p : Nat)
    (hne : dests ≠ [])
    (hp : parseIntJS (jsOr stRaw "0") = some (p : Int))
    (h0 : 0 < p)
    (hpr : shouldProceedToNext prev = false) :
    (dests.length < p →
      ringGroupHandler true (some dests) gidRaw stRaw prev fromF callerF =
        [.say unableMsg, .hangup]) ∧
    (p ≤ dests.length →
      ringGroupHandler true (some dests) gidRaw stRaw prev fromF callerF = []) := by
  rw [ringGroupHandler_eq dests hne, hp]
  constructor
  · intro hgt
    rw [ringGroupCore_outOfRange dests _ prev _ p hgt hpr]
  · intro hle
    rw [ringGroupCore_answered dests _ prev _ p h0 hle hpr]

theorem ringGroup_outOfRange_answered_catch_witness :
    ringGroupHandler true (some [⟨"Alice", "number", "+61400000001", 10⟩]) none (some "2")
      (some "completed") (some "+61400111222") none = [.say unableMsg, .hangup] := by
  have h := ringGroup_outOfRange_answered_catch [⟨"Alice", "number", "+61400000001", 10⟩]
    none (some "2") (some "completed") (some "+61400111222") none 2
    (by decide) (by decide) (by decide) (by decide)
  exact h.1 (by decide)

end TwilioPbx
